import Mathlib

/-!
Verification of the `HelmyTask` user-service backend.

Shallow embedding of the Go source under `src/`:

* Go strings are modelled as byte lists (`GoStr`); the helper `asciiBytes`
  turns a Lean string of ASCII characters into its UTF-8 byte list.
* `core.NormalizeName` (src/unnamed/part_005) is translated byte for byte:
  `strings.TrimSpace` is modelled on the ASCII whitespace set (the Unicode
  space code points above 0x7F are outside the model), and
  `strings.ToUpper(s[:1])` is the ASCII upper-casing of the first byte.
* Go errors are modelled by their messages (`String`), which is what the
  caller of the service can observe; `errors.New("x")` becomes `.error x`.
* The repository, Redis client and bcrypt/JWT helpers are external
  collaborators: each service method takes an environment record holding the
  collaborators' responses for the one call the method makes to each of
  them, and returns its Go result paired with the ordered trace of
  collaborator calls (`Ev`) it performed.
-/

/-- Go strings as byte sequences. -/
abbrev GoStr := List Nat

/-- UTF-8 bytes of a Lean string whose characters are all ASCII. -/
def asciiBytes (s : String) : GoStr := s.data.map Char.toNat

/-- ASCII whitespace bytes recognised by `strings.TrimSpace` (tab, newline,
vertical tab, form feed, carriage return, space). -/
def isSpaceByte (b : Nat) : Bool := b == 32 || (9 ≤ b && b ≤ 13)

/-- Model of `strings.TrimSpace` on ASCII content: drop whitespace bytes
from both ends. -/
def goTrimSpace (s : GoStr) : GoStr :=
  ((s.dropWhile isSpaceByte).reverse.dropWhile isSpaceByte).reverse

/-- ASCII upper-casing of one byte, which is what `strings.ToUpper` does to
a one-byte string (a lone byte above 0x7F is not valid UTF-8 and is left
unchanged by `strings.ToUpper`). -/
def upperByte (b : Nat) : Nat := if 97 ≤ b && b ≤ 122 then b - 32 else b

/-- Model of `core.NormalizeName` (src/unnamed/part_005): trim whitespace;
if the result is empty return it; otherwise `strings.ToUpper(s[:1]) + s[1:]`,
that is, upper-case the one-byte slice and concatenate the rest. -/
def NormalizeName (s : GoStr) : GoStr :=
  let t := goTrimSpace s
  if t = [] then t
  else (t.take 1).map upperByte ++ t.drop 1

/-- Domain entity `models.User` (src/main.go). Timestamps are opaque
naturals. -/
structure User where
  id : Nat
  name : GoStr
  email : GoStr
  password : GoStr
  createdAt : Nat
  updatedAt : Nat
  deriving Repr, DecidableEq

/-- Serialized form of a `User` produced by `json.Marshal`: the `Password`
field carries the json tag `-` (src/main.go line 73), so the serialization
has no password field at all. -/
structure UserJSON where
  id : Nat
  name : GoStr
  email : GoStr
  createdAt : Nat
  updatedAt : Nat
  deriving Repr, DecidableEq

/-- Model of `json.Marshal` on a `User`: every field except the
tag-excluded password. -/
def jsonOfUser (u : User) : UserJSON :=
  { id := u.id, name := u.name, email := u.email
    createdAt := u.createdAt, updatedAt := u.updatedAt }

/-- Model of `json.Unmarshal` of a user serialization into a fresh
`models.User`: the absent password field leaves the zero value (empty
string). -/
def userOfJSON (j : UserJSON) : User :=
  { id := j.id, name := j.name, email := j.email, password := []
    createdAt := j.createdAt, updatedAt := j.updatedAt }

/-- A value stored under a cache key: either a valid user serialization or
bytes that fail to unmarshal as a `User`. -/
inductive CacheVal where
  | good (j : UserJSON)
  | bad
  deriving Repr, DecidableEq

/-- Cache time-to-live `userCacheTTL = 10 * time.Minute`, in nanoseconds as
a Go `time.Duration`. -/
def userCacheTTL : Nat := 10 * 60 * 1000000000

/-- Cache key `fmt.Sprintf("user:%d", id)`. -/
def cacheKeyUser (id : Nat) : String := "user:" ++ toString id

/-- Error message of `errors.New("email already exists")`. -/
def emailExistsMsg : String := "email already exists"

/-- Error message of `errors.New("invalid credentials")`. -/
def invalidCredentialsMsg : String := "invalid credentials"

/-- One collaborator call performed by a service method, in order. -/
inductive Ev where
  | findByEmail
  | hash
  | create
  | findByID
  | update
  | delete
  | listCall (offset limit : Int)
  | cacheGet (key : String)
  | cacheSet (key : String) (val : UserJSON) (ttl : Nat)
  | cacheDel (key : String)
  deriving Repr, DecidableEq

/-- DTO `models.RegisterRequest`. -/
structure RegisterRequest where
  name : GoStr
  email : GoStr
  password : GoStr
  deriving Repr, DecidableEq

/-- DTO `models.UpdateUserRequest`: `nil` pointer fields become `none`. -/
structure UpdateUserRequest where
  name : Option GoStr
  email : Option GoStr
  password : Option GoStr
  deriving Repr, DecidableEq

/-- DTO `models.PagedUsers`. -/
structure PagedUsers where
  items : List User
  total : Int
  page : Int
  limit : Int
  deriving Repr, DecidableEq

/-- Collaborator responses for one `Register` call: the result of
`repo.FindByEmail(req.Email)`, of `utils.HashPassword(req.Password)`, of
`repo.Create(u)` (on success the store-assigned id and timestamps), and
whether the Redis client is configured (`s.rdb != nil`). -/
structure RegisterEnv where
  findByEmail : Except String User
  hash : Except String GoStr
  created : Except String (Nat × Nat × Nat)
  cacheConfigured : Bool
  deriving Repr

/-- Model of `userService.Register` (src/services/user_service.go lines
58-97), returning the Go result and the trace of collaborator calls. -/
def Register (env : RegisterEnv) (req : RegisterRequest) :
    Except String User × List Ev :=
  match env.findByEmail with
  | .ok _ => (.error emailExistsMsg, [.findByEmail])
  | .error _ =>
    match env.hash with
    | .error e => (.error e, [.findByEmail, .hash])
    | .ok h =>
      let u : User :=
        { id := 0, name := NormalizeName req.name, email := req.email
          password := h, createdAt := 0, updatedAt := 0 }
      match env.created with
      | .error e => (.error e, [.findByEmail, .hash, .create])
      | .ok (nid, cAt, uAt) =>
        let u : User := { u with id := nid, createdAt := cAt, updatedAt := uAt }
        if env.cacheConfigured then
          (.ok u, [.findByEmail, .hash, .create,
                   .cacheSet (cacheKeyUser nid) (jsonOfUser u) userCacheTTL])
        else
          (.ok u, [.findByEmail, .hash, .create])

/-- Collaborator responses for one `Login` call: the result of
`repo.FindByEmail`, the boolean of `utils.CheckPassword(u.Password,
req.Password)`, and the result of `token.SignedString`. -/
structure LoginEnv where
  findByEmail : Except String User
  passwordOk : Bool
  signed : Except String String
  deriving Repr

/-- Model of `userService.Login` (src/services/user_service.go lines
100-132): any lookup failure and a password mismatch both collapse to the
`invalid credentials` error; on success the signed token (or the signing
error) is returned. -/
def Login (env : LoginEnv) : Except String String :=
  match env.findByEmail with
  | .error _ => .error invalidCredentialsMsg
  | .ok _ =>
    if !env.passwordOk then .error invalidCredentialsMsg
    else env.signed

/-- Outcome of the Redis `GET` in `GetByID`: a value, `redis.Nil` (key
absent), or another Redis error. -/
inductive RGet where
  | hit (v : CacheVal)
  | nilErr
  | errE (msg : String)
  deriving Repr, DecidableEq

/-- Collaborator responses for one `GetByID` call. -/
structure GetEnv where
  cacheConfigured : Bool
  cacheGet : RGet
  findByID : Except String User
  deriving Repr

/-- Model of `userService.GetByID` (src/services/user_service.go lines
135-179): try the cache when configured; a deserializable hit returns
immediately; an undecodable hit, `redis.Nil`, a Redis error, or no cache
all fall through to `repo.FindByID`, whose result is returned after a
best-effort cache population with the fixed TTL. -/
def GetByID (env : GetEnv) (id : Nat) : Except String User × List Ev :=
  let key := cacheKeyUser id
  let cacheHit : Option User :=
    if env.cacheConfigured then
      match env.cacheGet with
      | .hit (.good j) => some (userOfJSON j)
      | _ => none
    else none
  let pre : List Ev := if env.cacheConfigured then [.cacheGet key] else []
  match cacheHit with
  | some u => (.ok u, pre)
  | none =>
    match env.findByID with
    | .error e => (.error e, pre ++ [.findByID])
    | .ok u =>
      if env.cacheConfigured then
        (.ok u, pre ++ [.findByID, .cacheSet key (jsonOfUser u) userCacheTTL])
      else
        (.ok u, pre ++ [.findByID])

/-- Collaborator responses for one `UpdateUser` call: `repo.FindByID(id)`,
`repo.FindByEmail(*req.Email)` (consulted only when a differing email is
requested), `utils.HashPassword(*req.Password)` (only when a password is
requested), `repo.Update(u)`, and cache configuration. -/
structure UpdateEnv where
  findByID : Except String User
  findByEmailNew : Except String User
  hash : Except String GoStr
  updateRes : Except String Unit
  cacheConfigured : Bool
  deriving Repr

/-- Name stage of `UpdateUser` (user_service.go lines 207-209): when a new
name is provided it is normalized and overwritten, otherwise the loaded
user is untouched. -/
def applyNameChange (req : UpdateUserRequest) (u0 : User) : User :=
  match req.name with
  | some n => { u0 with name := NormalizeName n }
  | none => u0

/-- Email stage of `UpdateUser` (user_service.go lines 210-218): when a new
email differing from the current one is provided, the uniqueness lookup
runs; a found row aborts with the `email already exists` error, a lookup
error lets the overwrite proceed. The returned trace is the collaborator
calls performed so far. -/
def emailStep (env : UpdateEnv) (req : UpdateUserRequest) (u1 : User) :
    Except String (User × List Ev) :=
  match req.email with
  | some em =>
    if em ≠ u1.email then
      match env.findByEmailNew with
      | .ok _ => .error emailExistsMsg
      | .error _ => .ok ({ u1 with email := em }, [.findByID, .findByEmail])
    else .ok (u1, [.findByID])
  | none => .ok (u1, [.findByID])

/-- Password stage of `UpdateUser` (user_service.go lines 219-226): when a
new password is provided it is hashed and overwritten; a hashing failure
aborts with the hashing error. -/
def passwordStep (env : UpdateEnv) (req : UpdateUserRequest) (u2 : User)
    (tr2 : List Ev) : Except String (User × List Ev) :=
  match req.password with
  | some _ =>
    match env.hash with
    | .error e => .error e
    | .ok h => .ok ({ u2 with password := h }, tr2 ++ [.hash])
  | none => .ok (u2, tr2)

/-- Model of `userService.UpdateUser` (src/services/user_service.go lines
196-247): load current user, apply the partial changes (normalized name,
uniqueness-checked email, re-hashed password), persist via `repo.Update`,
then best-effort cache delete and set. -/
def UpdateUser (env : UpdateEnv) (id : Nat) (req : UpdateUserRequest) :
    Except String User × List Ev :=
  match env.findByID with
  | .error e => (.error e, [.findByID])
  | .ok u0 =>
    match emailStep env req (applyNameChange req u0) with
    | .error e => (.error e, [.findByID, .findByEmail])
    | .ok (u2, tr2) =>
      match passwordStep env req u2 tr2 with
      | .error e => (.error e, tr2 ++ [.hash])
      | .ok (u3, tr3) =>
        match env.updateRes with
        | .error e => (.error e, tr3 ++ [.update])
        | .ok _ =>
          if env.cacheConfigured then
            (.ok u3, tr3 ++ [.update, .cacheDel (cacheKeyUser id),
                             .cacheSet (cacheKeyUser id) (jsonOfUser u3) userCacheTTL])
          else
            (.ok u3, tr3 ++ [.update])

/-- Collaborator responses for one `ListUsers` call: the result of
`repo.List(offset, limit)`. -/
structure ListEnv where
  listRes : Except String (List User × Int)
  deriving Repr

/-- Two's-complement reduction of a value into the 64-bit signed range,
the semantics of every arithmetic operation on Go's `int` on a 64-bit
target. -/
def wrap64 (n : Int) : Int := (n + 2 ^ 63) % 2 ^ 64 - 2 ^ 63

/-- Model of `userService.ListUsers` (src/services/user_service.go lines
271-296): clamp `page < 1` to 1 and `limit <= 0 || limit > 100` to 10,
query the store at `offset = (page-1)*limit` computed with Go's wrapping
64-bit `int` subtraction and multiplication, and wrap the result in the
`PagedUsers` envelope carrying the clamped values. -/
def ListUsers (env : ListEnv) (page limit : Int) :
    Except String PagedUsers × List Ev :=
  let page := if page < 1 then 1 else page
  let limit := if limit ≤ 0 ∨ limit > 100 then 10 else limit
  let offset := wrap64 (wrap64 (page - 1) * limit)
  match env.listRes with
  | .error e => (.error e, [.listCall offset limit])
  | .ok (items, total) =>
    (.ok { items := items, total := total, page := page, limit := limit },
     [.listCall offset limit])

/-- Error message used by the repository for a missing row (gorm's
`record not found`); the services only test errors for nil-ness, never for
this content. -/
def notFoundMsg : String := "record not found"

/-- True when every byte is an ASCII decimal digit. -/
def allDigits (l : GoStr) : Bool := l.all (fun b => 48 ≤ b && b ≤ 57)

/-- Numeric value of a digit-byte string, most significant first. -/
def digitsToNat (l : GoStr) : Nat := l.foldl (fun a b => a * 10 + (b - 48)) 0

/-- Model of `strconv.Atoi` (base-10 `ParseInt` into a 64-bit `int`):
an optional sign followed by at least one digit; values outside the
`int64` range yield an error (`none`). -/
def goAtoi (s : GoStr) : Option Int :=
  let signDigits : Bool × GoStr :=
    match s with
    | 45 :: rest => (true, rest)
    | 43 :: rest => (false, rest)
    | _ => (false, s)
  let neg := signDigits.1
  let ds := signDigits.2
  if ds = [] ∨ allDigits ds = false then none
  else
    let n : Int := if neg then -(digitsToNat ds : Int) else (digitsToNat ds : Int)
    if n < -(2 ^ 63) ∨ n > 2 ^ 63 - 1 then none else some n

/-- Go conversion `uint(n)` of a 64-bit signed value: two's-complement
reduction modulo 2^64. -/
def goUintOfInt (n : Int) : Nat := (n % (2 : Int) ^ 64).toNat

/-- Shape of the `sub` claim after JWT parsing: JSON numbers decode to
`float64` (modelled by their non-negative integral value, the shape the
issuer produces), JSON strings to `string`; anything else matches neither
type case of the middleware. -/
inductive SubVal where
  | num (v : Nat)
  | str (s : GoStr)
  | other
  deriving Repr, DecidableEq

/-- Request-level inputs of one `Auth` middleware invocation: whether the
`Authorization` header carries a well-formed bearer token, whether
`jwt.Parse` succeeded and the token is valid (signature and expiration),
whether the claims assert to `jwt.MapClaims`, and the value found at key
`sub` (`none` when the key is absent, which the type-`switch` treats like
`other`). -/
structure AuthEnv where
  headerOk : Bool
  tokenValid : Bool
  claimsOk : Bool
  sub : Option SubVal
  deriving Repr, DecidableEq

/-- Error message `missing bearer token`. -/
def missingBearerMsg : String := "missing bearer token"

/-- Error message `invalid token`. -/
def invalidTokenMsg : String := "invalid token"

/-- Error message `invalid claims`. -/
def invalidClaimsMsg : String := "invalid claims"

/-- Outcome of the middleware: an aborted request with a 401 body, or a
call to `c.Next()` with the optional user id stored in the context. -/
inductive AuthOutcome where
  | abort (msg : String)
  | proceed (uid : Option Nat)
  deriving Repr, DecidableEq

/-- Model of `middlewares.Auth` (src/middlewares/auth.go lines 18-55):
reject a malformed header, an invalid token, or claims of the wrong shape
with 401; otherwise normalize the `sub` claim — a `float64` is cast with
`uint(v)`, a `string` is parsed with `strconv.Atoi` and cast with
`uint(n)`, anything else (or an unparseable string) sets no id — and
continue to the next handler in every one of those cases. -/
def Auth (env : AuthEnv) : AuthOutcome :=
  if !env.headerOk then .abort missingBearerMsg
  else if !env.tokenValid then .abort invalidTokenMsg
  else if !env.claimsOk then .abort invalidClaimsMsg
  else
    match env.sub with
    | some (.num v) => .proceed (some v)
    | some (.str s) =>
      match goAtoi s with
      | some n => .proceed (some (goUintOfInt n))
      | none => .proceed none
    | _ => .proceed none

/-- Trace property used by the cache-content invariant: every value the
trace writes to the cache deserializes to a user with an empty password
hash. -/
def cacheSetValsOmitHash (tr : List Ev) : Prop :=
  ∀ k v t, Ev.cacheSet k v t ∈ tr → (userOfJSON v).password = []

/-- Fixed sample user for witness instantiations. -/
def wUser : User :=
  { id := 1, name := asciiBytes "Ahmed", email := asciiBytes "a@b.c"
    password := asciiBytes "bcrypt-hash", createdAt := 3, updatedAt := 4 }

/-- Fixed sample token string for witness instantiations. -/
def sampleToken : String := "signed.jwt.token"

/-- C3: `Normalize` trims leading/trailing whitespace, returns the empty
string when the trimmed result is empty, and otherwise upper-cases the
first character leaving the remainder unchanged; the five documented
examples hold. -/
theorem C3_normalize_trims_and_uppercases_first :
    (∀ s : GoStr, NormalizeName s =
      match goTrimSpace s with
      | [] => ([] : GoStr)
      | c :: rest => upperByte c :: rest)
    ∧ NormalizeName (asciiBytes "") = asciiBytes ""
    ∧ NormalizeName (asciiBytes "   ") = asciiBytes ""
    ∧ NormalizeName (asciiBytes "a") = asciiBytes "A"
    ∧ NormalizeName (asciiBytes "  aHMED ") = asciiBytes "AHMED"
    ∧ NormalizeName (asciiBytes "Ahmed") = asciiBytes "Ahmed" := by
  refine ⟨?_, by decide, by decide, by decide, by decide, by decide⟩
  intro s
  cases h : goTrimSpace s with
  | nil => simp [NormalizeName, h]
  | cons c rest => simp [NormalizeName, h]

/-- C2: a Login whose email lookup fails and a Login whose email lookup
succeeds but whose password check fails return the very same
`invalid credentials` error, indistinguishable to the caller. -/
theorem C2_login_failures_indistinguishable (envA envB : LoginEnv)
    (u : User) (e : String)
    (hA : envA.findByEmail = .error e)
    (hB : envB.findByEmail = .ok u)
    (hpw : envB.passwordOk = false) :
    Login envA = .error invalidCredentialsMsg
    ∧ Login envB = .error invalidCredentialsMsg
    ∧ Login envA = Login envB := by
  refine ⟨?_, ?_, ?_⟩ <;> simp [Login, hA, hB, hpw]

/-- Login environment of a lookup that fails (unknown email). -/
def wLoginEnvA : LoginEnv :=
  { findByEmail := .error notFoundMsg, passwordOk := false
    signed := .ok sampleToken }

/-- Login environment of a found user with a wrong password. -/
def wLoginEnvB : LoginEnv :=
  { findByEmail := .ok wUser, passwordOk := false, signed := .ok sampleToken }

/-- Witness for C2 at the two concrete environments. -/
theorem C2_login_failures_indistinguishable_witness :
    Login wLoginEnvA = .error invalidCredentialsMsg
    ∧ Login wLoginEnvB = .error invalidCredentialsMsg
    ∧ Login wLoginEnvA = Login wLoginEnvB :=
  C2_login_failures_indistinguishable wLoginEnvA wLoginEnvB wUser
    notFoundMsg rfl rfl rfl

/-- C6: a Register whose email lookup finds a user fails with
`email already exists` after the single lookup: no hashing, no insert and
no cache write happen. -/
theorem C6_register_existing_email_short_circuits
    (env : RegisterEnv) (req : RegisterRequest) (u : User)
    (h : env.findByEmail = .ok u) :
    Register env req = (.error emailExistsMsg, [.findByEmail])
    ∧ Ev.hash ∉ (Register env req).2
    ∧ Ev.create ∉ (Register env req).2
    ∧ ∀ k v t, Ev.cacheSet k v t ∉ (Register env req).2 := by
  have hreg : Register env req = (.error emailExistsMsg, [.findByEmail]) := by
    simp [Register, h]
  refine ⟨hreg, ?_, ?_, ?_⟩ <;> simp [hreg]

/-- Register environment whose email lookup finds an existing row. -/
def wRegisterEnvExists : RegisterEnv :=
  { findByEmail := .ok wUser, hash := .ok (asciiBytes "h2")
    created := .ok (2, 5, 5), cacheConfigured := true }

/-- Fixed register request for witness instantiations. -/
def wRegisterReq : RegisterRequest :=
  { name := asciiBytes "ahmed", email := asciiBytes "a@b.c"
    password := asciiBytes "secret1" }

/-- Witness for C6 at a concrete environment. -/
theorem C6_register_existing_email_short_circuits_witness :
    Register wRegisterEnvExists wRegisterReq
      = (.error emailExistsMsg, [.findByEmail]) :=
  (C6_register_existing_email_short_circuits wRegisterEnvExists
    wRegisterReq wUser rfl).1

/-- Wrapping is the identity on values already inside the 64-bit signed
range. -/
theorem wrap64_eq_of_range (n : Int) (h1 : -(2 ^ 63) ≤ n)
    (h2 : n < 2 ^ 63) : wrap64 n = n := by
  unfold wrap64
  omega

/-- C7: for every 64-bit `page` and `limit`, `ListUsers` clamps `page < 1`
to 1 and `limit <= 0` or `limit > 100` to 10, queries the store at
`offset = (page-1)*limit` computed with the clamped values in Go's
wrapping 64-bit arithmetic (which agrees with the mathematical product
whenever that product fits in the signed range), returns the envelope
carrying the clamped values, and in particular
`ListUsers(page=0, limit=1000)` calls the store with offset 0 and
limit 10. -/
theorem C7_listusers_clamps_and_envelopes
    (env : ListEnv) (page limit : Int) (items : List User) (total : Int)
    (h : env.listRes = .ok (items, total))
    (hpage : -(2 ^ 63) ≤ page ∧ page < 2 ^ 63)
    (hlimit : -(2 ^ 63) ≤ limit ∧ limit < 2 ^ 63) :
    ListUsers env page limit =
      (.ok { items := items, total := total
             page := if page < 1 then 1 else page
             limit := if limit ≤ 0 ∨ limit > 100 then 10 else limit },
       [.listCall
          (wrap64 (((if page < 1 then 1 else page) - 1) *
            (if limit ≤ 0 ∨ limit > 100 then 10 else limit)))
          (if limit ≤ 0 ∨ limit > 100 then 10 else limit)])
    ∧ (1 : Int) ≤ (if page < 1 then 1 else page)
    ∧ (1 : Int) ≤ (if limit ≤ 0 ∨ limit > 100 then 10 else limit)
    ∧ (if limit ≤ 0 ∨ limit > 100 then 10 else limit) ≤ (100 : Int)
    ∧ (((if page < 1 then 1 else page) - 1) *
         (if limit ≤ 0 ∨ limit > 100 then 10 else limit) < 2 ^ 63 →
       wrap64 (((if page < 1 then 1 else page) - 1) *
         (if limit ≤ 0 ∨ limit > 100 then 10 else limit))
         = ((if page < 1 then 1 else page) - 1) *
           (if limit ≤ 0 ∨ limit > 100 then 10 else limit))
    ∧ (ListUsers env 0 1000).2 = [.listCall 0 10] := by
  obtain ⟨hp1, hp2⟩ := hpage
  obtain ⟨hl1, hl2⟩ := hlimit
  have hp' : (1 : Int) ≤ (if page < 1 then 1 else page) := by
    split <;> omega
  have hp'2 : (if page < 1 then 1 else page) < 2 ^ 63 := by
    split <;> omega
  have hl' : (1 : Int) ≤ (if limit ≤ 0 ∨ limit > 100 then 10 else limit) := by
    split <;> omega
  have hl'2 : (if limit ≤ 0 ∨ limit > 100 then 10 else limit) ≤ 100 := by
    split <;> omega
  have hw : wrap64 ((if page < 1 then 1 else page) - 1)
      = (if page < 1 then 1 else page) - 1 :=
    wrap64_eq_of_range _ (by omega) (by omega)
  refine ⟨?_, hp', hl', hl'2, ?_, ?_⟩
  · simp only [ListUsers, h, hw]
  · intro hlt
    have hnn : (0 : Int) ≤ ((if page < 1 then 1 else page) - 1) *
        (if limit ≤ 0 ∨ limit > 100 then 10 else limit) :=
      mul_nonneg (by omega) (by omega)
    exact wrap64_eq_of_range _ (by omega) hlt
  · simp [ListUsers, h]
    norm_num [wrap64]

/-- List environment returning one user and total 1. -/
def wListEnv : ListEnv := { listRes := .ok ([wUser], 1) }

/-- Witness for C7: the concrete call with page 0 and limit 1000. -/
theorem C7_listusers_clamps_and_envelopes_witness :
    ListUsers wListEnv 0 1000 =
      (.ok { items := [wUser], total := 1, page := 1, limit := 10 },
       [.listCall 0 10]) := by
  have h := (C7_listusers_clamps_and_envelopes wListEnv 0 1000 [wUser] 1
    rfl (by norm_num) (by norm_num)).1
  norm_num [wrap64] at h
  exact h

/-- Store error message of a late uniqueness violation rejected by the
relational store's unique index on email. -/
def uniqViolationMsg : String := "UNIQUE constraint failed: users.email"

/-- Register environment whose pre-check passes but whose insert is
rejected by the store's unique index. -/
def cexRegEnv : RegisterEnv :=
  { findByEmail := .error notFoundMsg, hash := .ok (asciiBytes "bhash")
    created := .error uniqViolationMsg, cacheConfigured := false }

/-- Counterexample for C1: when the store rejects the insert with a
uniqueness-violation error, Register returns that raw store error, which
is not the `email already exists` condition. -/
theorem C1_counterexample_raw_error_returned :
    (Register cexRegEnv wRegisterReq).1 = .error uniqViolationMsg
    ∧ uniqViolationMsg ≠ emailExistsMsg := by
  refine ⟨rfl, ?_⟩
  decide

/-- C1 (amended): when the store rejects the insert (Register) or the
update (UpdateUser) — including with a late-detected uniqueness
violation — the service propagates the store's error unchanged to the
caller; the `email already exists` condition comes only from the
pre-check lookup. -/
theorem C1_amended_store_write_error_propagates
    (envR : RegisterEnv) (req : RegisterRequest) (e0 eIns : String)
    (hsh : GoStr)
    (envU : UpdateEnv) (id : Nat) (ureq : UpdateUserRequest)
    (u0 : User) (em : GoStr) (eNF eUpd : String)
    (hR1 : envR.findByEmail = .error e0) (hR2 : envR.hash = .ok hsh)
    (hR3 : envR.created = .error eIns)
    (hU1 : envU.findByID = .ok u0) (hU2 : ureq.email = some em)
    (hU3 : em ≠ u0.email) (hU4 : envU.findByEmailNew = .error eNF)
    (hU5 : ureq.password = none) (hU6 : envU.updateRes = .error eUpd) :
    (Register envR req).1 = .error eIns
    ∧ (UpdateUser envU id ureq).1 = .error eUpd := by
  constructor
  · simp [Register, hR1, hR2, hR3]
  · have hemail : em ≠ (applyNameChange ureq u0).email := by
      cases hn : ureq.name <;> simp [applyNameChange, hn, hU3]
    have hstep : emailStep envU ureq (applyNameChange ureq u0)
        = .ok ({ applyNameChange ureq u0 with email := em },
               [.findByID, .findByEmail]) := by
      simp [emailStep, hU2, hU4, if_pos hemail]
    simp [UpdateUser, hU1, hstep, passwordStep, hU5, hU6]

/-- Update environment whose pre-check lookup misses but whose store
update is rejected by the unique index. -/
def cexUpdEnv : UpdateEnv :=
  { findByID := .ok wUser, findByEmailNew := .error notFoundMsg
    hash := .ok (asciiBytes "h3"), updateRes := .error uniqViolationMsg
    cacheConfigured := false }

/-- Update request asking only for a new, different email. -/
def wUpdReqEmail : UpdateUserRequest :=
  { name := none, email := some (asciiBytes "new@b.c"), password := none }

/-- Witness for the amended C1 at concrete environments. -/
theorem C1_amended_store_write_error_propagates_witness :
    (Register cexRegEnv wRegisterReq).1 = .error uniqViolationMsg
    ∧ (UpdateUser cexUpdEnv 1 wUpdReqEmail).1 = .error uniqViolationMsg :=
  C1_amended_store_write_error_propagates cexRegEnv wRegisterReq
    notFoundMsg uniqViolationMsg (asciiBytes "bhash") cexUpdEnv 1
    wUpdReqEmail wUser (asciiBytes "new@b.c") notFoundMsg
    uniqViolationMsg rfl rfl rfl rfl rfl (by decide) rfl rfl rfl

/-- C5: an UpdateUser that requests an email differing from the current
one and whose uniqueness lookup finds a row aborts with
`email already exists` before `repo.Update` and before any cache write. -/
theorem C5_update_conflicting_email_aborts
    (env : UpdateEnv) (id : Nat) (req : UpdateUserRequest)
    (u0 w : User) (em : GoStr)
    (h1 : env.findByID = .ok u0) (h2 : req.email = some em)
    (h3 : em ≠ u0.email) (h4 : env.findByEmailNew = .ok w) :
    (UpdateUser env id req).1 = .error emailExistsMsg
    ∧ Ev.update ∉ (UpdateUser env id req).2
    ∧ ∀ k v t, Ev.cacheSet k v t ∉ (UpdateUser env id req).2 := by
  have hemail : em ≠ (applyNameChange req u0).email := by
    cases hn : req.name <;> simp [applyNameChange, hn, h3]
  have hstep : emailStep env req (applyNameChange req u0)
      = .error emailExistsMsg := by
    simp [emailStep, h2, h4, if_pos hemail]
  have hres : UpdateUser env id req
      = (.error emailExistsMsg, [.findByID, .findByEmail]) := by
    simp [UpdateUser, h1, hstep]
  rw [hres]
  exact ⟨rfl, by simp, by intro k v t; simp⟩

/-- Second sample user, owner of the email the update collides with. -/
def wUser2 : User :=
  { id := 2, name := asciiBytes "Sara", email := asciiBytes "s@b.c"
    password := asciiBytes "h2", createdAt := 0, updatedAt := 0 }

/-- Update environment in which the requested email belongs to another
stored user. -/
def wUpdEnvConflict : UpdateEnv :=
  { findByID := .ok wUser, findByEmailNew := .ok wUser2
    hash := .ok (asciiBytes "h3"), updateRes := .ok ()
    cacheConfigured := true }

/-- Update request targeting the second user's email. -/
def wUpdReqConflict : UpdateUserRequest :=
  { name := none, email := some (asciiBytes "s@b.c"), password := none }

/-- Witness for C5 at a concrete environment. -/
theorem C5_update_conflicting_email_aborts_witness :
    (UpdateUser wUpdEnvConflict 1 wUpdReqConflict).1 = .error emailExistsMsg
    ∧ Ev.update ∉ (UpdateUser wUpdEnvConflict 1 wUpdReqConflict).2 :=
  have h := C5_update_conflicting_email_aborts wUpdEnvConflict 1
    wUpdReqConflict wUser wUser2 (asciiBytes "s@b.c") rfl rfl
    (by decide) rfl
  ⟨h.1, h.2.1⟩

/-- C10: when the Register pre-check lookup fails with any error at all,
the service treats the email as available: it hashes the password,
attempts the insert when hashing succeeds, and the outcome is independent
of the pre-check's error (it is never surfaced). -/
theorem C10_register_ignores_precheck_failure
    (env : RegisterEnv) (req : RegisterRequest) (e e2 : String)
    (h : env.findByEmail = .error e) :
    Ev.hash ∈ (Register env req).2
    ∧ (∀ hsh, env.hash = .ok hsh → Ev.create ∈ (Register env req).2)
    ∧ Register { env with findByEmail := .error e2 } req
        = Register env req := by
  refine ⟨?_, ?_, ?_⟩
  · rcases hh : env.hash with eh | hsh
    · simp [Register, h, hh]
    · rcases hc : env.created with ec | ⟨nid, cAt, uAt⟩ <;>
        cases hcf : env.cacheConfigured <;>
        simp [Register, h, hh, hc, hcf]
  · intro hsh hh
    rcases hc : env.created with ec | ⟨nid, cAt, uAt⟩ <;>
      cases hcf : env.cacheConfigured <;>
      simp [Register, h, hh, hc, hcf]
  · simp [Register, h]

/-- Store error message of a non-not-found repository failure. -/
def dbDownMsg : String := "connection refused"

/-- Register environment whose pre-check lookup fails and whose insert
succeeds. -/
def wRegEnvPre : RegisterEnv :=
  { findByEmail := .error dbDownMsg, hash := .ok (asciiBytes "bh")
    created := .ok (3, 7, 7), cacheConfigured := false }

/-- Witness for C10 at a concrete environment whose pre-check fails with
a non-not-found store error. -/
theorem C10_register_ignores_precheck_failure_witness :
    Ev.hash ∈ (Register wRegEnvPre wRegisterReq).2
    ∧ Ev.create ∈ (Register wRegEnvPre wRegisterReq).2
    ∧ Register { wRegEnvPre with findByEmail := .error notFoundMsg }
        wRegisterReq = Register wRegEnvPre wRegisterReq :=
  have h := C10_register_ignores_precheck_failure wRegEnvPre wRegisterReq
    dbDownMsg notFoundMsg rfl
  ⟨h.1, h.2.1 (asciiBytes "bh") rfl, h.2.2⟩

/-- C4: with a configured cache, a deserializable cached value is returned
without any store call, while an undecodable cached value is treated as a
miss: exactly one store query runs, its outcome (value or error, never a
deserialization error) is returned, and on success the cache is populated
with the fixed TTL. -/
theorem C4_getbyid_cache_hit_and_bad_value (env : GetEnv) (id : Nat)
    (hcfg : env.cacheConfigured = true) :
    (∀ j, env.cacheGet = .hit (.good j) →
      GetByID env id = (.ok (userOfJSON j), [.cacheGet (cacheKeyUser id)]))
    ∧ (env.cacheGet = .hit .bad →
        (GetByID env id).2.count .findByID = 1
        ∧ (∀ e, env.findByID = .error e → (GetByID env id).1 = .error e)
        ∧ (∀ u, env.findByID = .ok u →
            GetByID env id =
              (.ok u, [.cacheGet (cacheKeyUser id), .findByID,
                .cacheSet (cacheKeyUser id) (jsonOfUser u) userCacheTTL]))) := by
  constructor
  · intro j hj
    simp [GetByID, hcfg, hj]
  · intro hbad
    refine ⟨?_, ?_, ?_⟩
    · rcases hf : env.findByID with e | u <;>
        simp [GetByID, hcfg, hbad, hf, List.count_cons, List.count_nil]
    · intro e he
      simp [GetByID, hcfg, hbad, he]
    · intro u hu
      simp [GetByID, hcfg, hbad, hu]

/-- Cache environment holding a deserializable value for the key. -/
def wGetEnvHit : GetEnv :=
  { cacheConfigured := true, cacheGet := .hit (.good (jsonOfUser wUser))
    findByID := .error notFoundMsg }

/-- Cache environment holding undecodable bytes for the key, with a store
row behind it. -/
def wGetEnvBad : GetEnv :=
  { cacheConfigured := true, cacheGet := .hit .bad, findByID := .ok wUser }

/-- Witness for C4: a concrete hit short-circuits the store and a concrete
undecodable value falls through to one store query plus a cache set. -/
theorem C4_getbyid_cache_hit_and_bad_value_witness :
    GetByID wGetEnvHit 1
      = (.ok (userOfJSON (jsonOfUser wUser)), [.cacheGet (cacheKeyUser 1)])
    ∧ GetByID wGetEnvBad 1
      = (.ok wUser, [.cacheGet (cacheKeyUser 1), .findByID,
          .cacheSet (cacheKeyUser 1) (jsonOfUser wUser) userCacheTTL]) :=
  ⟨(C4_getbyid_cache_hit_and_bad_value wGetEnvHit 1 rfl).1
      (jsonOfUser wUser) rfl,
   ((C4_getbyid_cache_hit_and_bad_value wGetEnvBad 1 rfl).2 rfl).2.2
      wUser rfl⟩

/-- C8: once the bearer header, signature/expiration check and claims
shape are accepted, the middleware proceeds to the next handler in every
case, setting the context user id to `uint` of a numeric `sub`, to the
`Atoi`-parsed value of a string `sub` when it parses, and to nothing at
all (silently dropped) otherwise. -/
theorem C8_auth_sub_claim_normalization (env : AuthEnv)
    (h1 : env.headerOk = true) (h2 : env.tokenValid = true)
    (h3 : env.claimsOk = true) :
    Auth env = .proceed
      (match env.sub with
       | some (.num v) => some v
       | some (.str s) => (goAtoi s).map goUintOfInt
       | _ => none) := by
  rcases hs : env.sub with _ | sv
  · simp [Auth, h1, h2, h3, hs]
  · cases sv with
    | num v => simp [Auth, h1, h2, h3, hs]
    | str s => cases ha : goAtoi s <;> simp [Auth, h1, h2, h3, hs, ha]
    | other => simp [Auth, h1, h2, h3, hs]

/-- Valid-token environment whose subject claim is the numeric string
`42`. -/
def wAuthEnvStr : AuthEnv :=
  { headerOk := true, tokenValid := true, claimsOk := true
    sub := some (.str (asciiBytes "42")) }

/-- Witness for C8: the string subject `42` is normalized to the
identifier 42 and the request proceeds. -/
theorem C8_auth_sub_claim_normalization_witness :
    Auth wAuthEnvStr = .proceed (some 42) := by
  have h := C8_auth_sub_claim_normalization wAuthEnvStr rfl rfl rfl
  rw [h]
  decide

/-- The email stage records either just the load or the load plus the
uniqueness lookup. -/
theorem emailStep_ok_trace {env : UpdateEnv} {req : UpdateUserRequest}
    {u1 u2 : User} {tr2 : List Ev}
    (h : emailStep env req u1 = .ok (u2, tr2)) :
    tr2 = [.findByID] ∨ tr2 = [.findByID, .findByEmail] := by
  unfold emailStep at h
  split at h
  · split at h
    · split at h
      · simp at h
      · simp at h
        exact Or.inr h.2.symm
    · simp at h
      exact Or.inl h.2.symm
  · simp at h
    exact Or.inl h.2.symm

/-- The password stage appends at most one hashing call to the trace. -/
theorem passwordStep_ok_trace {env : UpdateEnv} {req : UpdateUserRequest}
    {u2 u3 : User} {tr2 tr3 : List Ev}
    (h : passwordStep env req u2 tr2 = .ok (u3, tr3)) :
    tr3 = tr2 ∨ tr3 = tr2 ++ [.hash] := by
  unfold passwordStep at h
  split at h
  · split at h
    · simp at h
    · simp at h
      exact Or.inr h.2.symm
  · simp at h
    exact Or.inl h.2.symm

/-- C9: every value any service path writes to the cache is the
password-free serialization of a user, so a GetByID answered from the
cache returns a user whose password-hash field is empty, while a GetByID
answered by the store returns the stored hash — the round-trip through
the cache loses exactly that field. -/
theorem C9_cache_serialization_omits_password :
    (∀ u : User, (userOfJSON (jsonOfUser u)).password = [])
    ∧ (∀ (env : RegisterEnv) (req : RegisterRequest),
        cacheSetValsOmitHash (Register env req).2)
    ∧ (∀ (env : GetEnv) (id : Nat), cacheSetValsOmitHash (GetByID env id).2)
    ∧ (∀ (env : UpdateEnv) (id : Nat) (req : UpdateUserRequest),
        cacheSetValsOmitHash (UpdateUser env id req).2)
    ∧ (∀ (env : GetEnv) (id : Nat) (j : UserJSON),
        env.cacheConfigured = true → env.cacheGet = .hit (.good j) →
        (GetByID env id).1 = .ok (userOfJSON j)
        ∧ (userOfJSON j).password = [])
    ∧ (∀ (env : GetEnv) (id : Nat) (u : User),
        env.cacheGet = .hit .bad → env.findByID = .ok u →
        (GetByID env id).1 = .ok u) := by
  refine ⟨fun u => rfl, ?_, ?_, ?_, ?_, ?_⟩
  · intro env req k v t hm
    rcases h1 : env.findByEmail with e1 | u1
    · rcases h2 : env.hash with e2 | hsh
      · simp [Register, h1, h2] at hm
      · rcases h3 : env.created with e3 | ⟨nid, cAt, uAt⟩
        · simp [Register, h1, h2, h3] at hm
        · cases h4 : env.cacheConfigured
          · simp [Register, h1, h2, h3, h4] at hm
          · simp [Register, h1, h2, h3, h4] at hm
            obtain ⟨hk, hv, ht⟩ := hm
            subst hv
            rfl
    · simp [Register, h1] at hm
  · intro env id k v t hm
    cases hc : env.cacheConfigured
    · rcases hf : env.findByID with e | u <;> simp [GetByID, hc, hf] at hm
    · rcases hg : env.cacheGet with val | _ | m
      · cases val with
        | good j => simp [GetByID, hc, hg] at hm
        | bad =>
          rcases hf : env.findByID with e | u
          · simp [GetByID, hc, hg, hf] at hm
          · simp [GetByID, hc, hg, hf] at hm
            obtain ⟨hk, hv, ht⟩ := hm
            subst hv
            rfl
      · rcases hf : env.findByID with e | u
        · simp [GetByID, hc, hg, hf] at hm
        · simp [GetByID, hc, hg, hf] at hm
          obtain ⟨hk, hv, ht⟩ := hm
          subst hv
          rfl
      · rcases hf : env.findByID with e | u
        · simp [GetByID, hc, hg, hf] at hm
        · simp [GetByID, hc, hg, hf] at hm
          obtain ⟨hk, hv, ht⟩ := hm
          subst hv
          rfl
  · intro env id req k v t hm
    rcases h1 : env.findByID with e | u0
    · simp [UpdateUser, h1] at hm
    · rcases hes : emailStep env req (applyNameChange req u0) with e | p
      · simp [UpdateUser, h1, hes] at hm
      · obtain ⟨u2, tr2⟩ := p
        rcases hps : passwordStep env req u2 tr2 with e | q
        · simp [UpdateUser, h1, hes, hps] at hm
          rcases emailStep_ok_trace hes with h2 | h2 <;> subst h2 <;>
            simp at hm
        · obtain ⟨u3, tr3⟩ := q
          rcases hu : env.updateRes with e | uu
          · simp [UpdateUser, h1, hes, hps, hu] at hm
            rcases emailStep_ok_trace hes with h2 | h2 <;>
              rcases passwordStep_ok_trace hps with h3 | h3 <;>
              subst h2 <;> subst h3 <;> simp at hm
          · cases hcf : env.cacheConfigured
            · simp [UpdateUser, h1, hes, hps, hu, hcf] at hm
              rcases emailStep_ok_trace hes with h2 | h2 <;>
                rcases passwordStep_ok_trace hps with h3 | h3 <;>
                subst h2 <;> subst h3 <;> simp at hm
            · simp [UpdateUser, h1, hes, hps, hu, hcf] at hm
              rcases emailStep_ok_trace hes with h2 | h2 <;>
                rcases passwordStep_ok_trace hps with h3 | h3 <;>
                subst h2 <;> subst h3 <;> simp at hm <;>
                (obtain ⟨hk, hv, ht⟩ := hm; subst hv; rfl)
  · intro env id j hc hg
    exact ⟨by simp [GetByID, hc, hg], rfl⟩
  · intro env id u hbad hf
    cases hc : env.cacheConfigured <;> simp [GetByID, hc, hbad, hf]

/-- Witness for C9: a concrete cache hit returns the password-free user
and a concrete store fallback returns the stored hash. -/
theorem C9_cache_serialization_omits_password_witness :
    ((GetByID wGetEnvHit 1).1 = .ok (userOfJSON (jsonOfUser wUser))
     ∧ (userOfJSON (jsonOfUser wUser)).password = [])
    ∧ (GetByID wGetEnvBad 1).1 = .ok wUser :=
  ⟨C9_cache_serialization_omits_password.2.2.2.2.1 wGetEnvHit 1
      (jsonOfUser wUser) rfl rfl,
   C9_cache_serialization_omits_password.2.2.2.2.2 wGetEnvBad 1
      wUser rfl rfl⟩
